import Mathlib

/-!
Shallow embedding of the gosand repository:
  - src/cmd/rest/rest_standard.go  (in-memory Product CRUD service)
  - src/cmd/weather/weather_data.go (weather proxy)

Modelling conventions:
  - Go float64 is modelled as the exact rationals Rat; every operation the
    code performs on prices/temperatures (comparison with 0, assignment,
    JSON round-trip) is exact, so no rounding behaviour is lost.
  - A JSON document is modelled by the inductive Json below.  A request
    body is an Option Json: none stands for a byte string that is not
    valid JSON text.  encoding/json.Unmarshal into a struct is modelled
    by an explicit decoder with Go semantics: top level must be an object
    (or null, a no-op), unknown keys are ignored, a known key with a value
    of the wrong type is an error, a missing key leaves the zero value,
    null values are skipped, and with duplicate keys the last wins.
  - io.ReadAll of an in-memory request body is modelled as always
    succeeding: the embedded Request carries the whole body.
  - Exact wording of error strings produced inside the Go standard
    library is not modelled; statuses and the literals the code itself writes are.
  - The mutex discipline and goroutines are not modelled: each request is
    a pure state transformer on the product slice, which is exactly what
    the lock serialization guarantees.
-/

namespace Gosand

/-- A JSON value, as encoding/json sees it. -/
inductive Json where
  | null
  | bool (b : Bool)
  | num (q : Rat)
  | str (s : String)
  | arr (elems : List Json)
  | obj (fields : List (String × Json))

/-- Model of the Product struct: Name string, Price float64. -/
structure Product where
  Name : String
  Price : Rat
deriving DecidableEq

/-- Go zero value of Product (var product Product). -/
def defaultProduct : Product := ⟨"", 0⟩

/-- Type alias Products = slice of Product. -/
abbrev Products := List Product

/-- An HTTP request as the product handler observes it: method, the string
r.URL.String() yields, the content-type header value, and the body (none
when the body bytes are not valid JSON text). -/
structure Request where
  method : String
  url : String
  contentType : String
  body : Option Json

/-- A response body: either a JSON document (written by returnJSONResponse)
or plain text (written by fmt.Fprintf / http.Error). -/
inductive RBody where
  | json (j : Json)
  | text (s : String)

/-- An HTTP response: status code and body. -/
structure Response where
  status : Nat
  body : RBody

/- Path parsing: strings.Split on the slash character and strconv.Atoi. -/

/-- Go strings.Split(s, "/") on the character list, structurally recursive
so the kernel can evaluate it. -/
def splitOnSlash : List Char → List (List Char)
  | [] => [[]]
  | c :: rest =>
    let r := splitOnSlash rest
    if c = '/' then [] :: r
    else
      match r with
      | [] => [[c]]
      | first :: others => (c :: first) :: others

/-- Go strings.Split(s, "/"). -/
def splitSlash (s : String) : List String :=
  (splitOnSlash s.data).map (fun cs => String.mk cs)

/-- Go strconv.Atoi: optional sign, then one or more decimal digits. -/
def atoi (s : String) : Option Int :=
  let cs := s.data
  let signed : Bool × List Char :=
    match cs with
    | '-' :: t => (true, t)
    | '+' :: t => (false, t)
    | t => (false, t)
  let digits := signed.2
  if digits.isEmpty then none
  else if digits.all Char.isDigit then
    let n : Nat := digits.foldl (fun acc c => acc * 10 + (c.toNat - 48)) 0
    some (if signed.1 then -(n : Int) else (n : Int))
  else none

/-- Model of getIdFromRequestPath: splits r.URL.String() on slashes,
requires exactly 3 parts, and converts the last to an int. -/
def getIdFromRequestPath (url : String) : Except String Int :=
  let urlParts := splitSlash url
  let partsLength := urlParts.length
  if partsLength ≠ 3 then
    Except.error "id or resource not found"
  else
    match atoi (urlParts.getD (partsLength - 1) "") with
    | none => Except.error "malformed id"
    | some id => Except.ok id

/- JSON encoding, mirroring json.Marshal of the Go values involved. -/

/-- json.Marshal of a Product. -/
def encodeProduct (p : Product) : Json :=
  Json.obj [("name", Json.str p.Name), ("price", Json.num p.Price)]

/-- json.Marshal of a Products slice. -/
def encodeProducts (ps : Products) : Json :=
  Json.arr (ps.map encodeProduct)

/-- Model of returnJSONResponse: status code plus marshalled JSON body
(marshalling of our data never fails). -/
def returnJSONResponse (code : Nat) (j : Json) : Response :=
  ⟨code, RBody.json j⟩

/-- Model of returnErrorResponse: JSON object with a single error field. -/
def returnErrorResponse (code : Nat) (msg : String) : Response :=
  returnJSONResponse code (Json.obj [("error", Json.str msg)])

/- json.Unmarshal(body, product pointer) with Go struct-decoding
semantics. -/

/-- One field of the incoming object applied to the partially decoded
Product: keys name and price are recognised (string and number
respectively), null is skipped, wrong types fail, other keys are ignored. -/
def setProductField (p : Product) (kv : String × Json) : Except String Product :=
  if kv.1 = "name" then
    match kv.2 with
    | Json.str s => Except.ok { p with Name := s }
    | Json.null => Except.ok p
    | _ => Except.error "cannot unmarshal value into Go struct field Product.name of type string"
  else if kv.1 = "price" then
    match kv.2 with
    | Json.num q => Except.ok { p with Price := q }
    | Json.null => Except.ok p
    | _ => Except.error "cannot unmarshal value into Go struct field Product.price of type float64"
  else
    Except.ok p

/-- Fold the object fields left to right (later duplicates win). -/
def unmarshalProductFields (p : Product) : List (String × Json) → Except String Product
  | [] => Except.ok p
  | kv :: rest =>
    match setProductField p kv with
    | Except.ok p2 => unmarshalProductFields p2 rest
    | Except.error e => Except.error e

/-- json.Unmarshal(body, product pointer): fails when the body is not valid
JSON or the top level is not an object (null leaves the zero value). -/
def unmarshalProduct : Option Json → Except String Product
  | none => Except.error "invalid character looking for beginning of value"
  | some Json.null => Except.ok defaultProduct
  | some (Json.obj fields) => unmarshalProductFields defaultProduct fields
  | some _ => Except.error "cannot unmarshal value into Go value of type main.Product"

/- The four productHandler methods.  Each is a pure state transformer
Products -> Request -> Products x Response; the mutex in the source
serializes requests, which is exactly this functional semantics. -/

/-- productHandler.post: content-type must be application/json (415),
body must unmarshal into a Product (400), then append and return 201. -/
def productHandler.post (ph : Products) (r : Request) : Products × Response :=
  if r.contentType ≠ "application/json" then
    (ph, returnErrorResponse 415 "Content type should be application/json.")
  else
    match unmarshalProduct r.body with
    | Except.error e => (ph, returnErrorResponse 400 e)
    | Except.ok product =>
      (ph ++ [product], returnJSONResponse 201 (encodeProduct product))

/-- productHandler.get: on any path-parsing error return all products with
200; out-of-range id is 404; otherwise the product at the id. -/
def productHandler.get (ph : Products) (r : Request) : Products × Response :=
  match getIdFromRequestPath r.url with
  | Except.error _ => (ph, returnJSONResponse 200 (encodeProducts ph))
  | Except.ok id =>
    if id < 0 ∨ id ≥ (ph.length : Int) then
      (ph, returnErrorResponse 404 "Product Id does not exist.")
    else
      (ph, returnJSONResponse 200 (encodeProduct (ph.getD id.toNat defaultProduct)))

/-- productHandler.put: 404 on a malformed path, 415 on wrong content-type,
400 on a body that does not unmarshal, 404 on an out-of-range id, and
otherwise overwrites exactly the non-empty name and non-zero price. -/
def productHandler.put (ph : Products) (r : Request) : Products × Response :=
  match getIdFromRequestPath r.url with
  | Except.error e => (ph, returnErrorResponse 404 e)
  | Except.ok id =>
    if r.contentType ≠ "application/json" then
      (ph, returnErrorResponse 415 "Content type should be application/json.")
    else
      match unmarshalProduct r.body with
      | Except.error e => (ph, returnErrorResponse 400 e)
      | Except.ok product =>
        if id < 0 ∨ id ≥ (ph.length : Int) then
          (ph, returnErrorResponse 404 "Product Id does not exist.")
        else
          let old := ph.getD id.toNat defaultProduct
          let updated : Product :=
            { Name := if product.Name ≠ "" then product.Name else old.Name
              Price := if product.Price ≠ 0 then product.Price else old.Price }
          (ph.set id.toNat updated, returnJSONResponse 200 (encodeProduct updated))

/-- productHandler.delete: unimplemented stub, writes the literal text with
the implicit 200 status and never touches the slice. -/
def productHandler.delete (ph : Products) (_ : Request) : Products × Response :=
  (ph, ⟨200, RBody.text "Delete!"⟩)

/-- productHandler.ServeHTTP: dispatch on the request method, 405 otherwise. -/
def productHandler.serveHTTP (ph : Products) (r : Request) : Products × Response :=
  if r.method = "POST" then productHandler.post ph r
  else if r.method = "GET" then productHandler.get ph r
  else if r.method = "PUT" then productHandler.put ph r
  else if r.method = "DELETE" then productHandler.delete ph r
  else (ph, returnErrorResponse 405 "Invalid HTTP method")

/-- The three products seeded in main. -/
def seedProducts : Products :=
  [⟨"food", 10⟩, ⟨"car", 250⟩, ⟨"gadgets", 50⟩]

/- Weather proxy: src/cmd/weather/weather_data.go.  The outbound http.Get
is modelled by a function from the request URL to either a transport
error or the response body (itself an Option Json, none when the body is
not valid JSON text). -/

/-- The hardcoded upstream API key. -/
def API_KEY : String := "8150e50dcd5b50bb05c7a227bae36aaa"

/-- The nested anonymous Main struct of WeatherData. -/
structure WeatherMain where
  TempKelvin : Rat
deriving DecidableEq

/-- Model of the WeatherData struct: name, plus main.temp. -/
structure WeatherData where
  Name : String
  Main : WeatherMain
deriving DecidableEq

/-- Go zero value of WeatherData (var d WeatherData). -/
def defaultWeatherData : WeatherData := ⟨"", ⟨0⟩⟩

/-- One field of the inner main object: key temp as a number; null is
skipped, wrong types fail, other keys are ignored. -/
def setWeatherMainField (m : WeatherMain) (kv : String × Json) : Except String WeatherMain :=
  if kv.1 = "temp" then
    match kv.2 with
    | Json.num q => Except.ok ⟨q⟩
    | Json.null => Except.ok m
    | _ => Except.error "cannot unmarshal value into Go struct field WeatherData.main.temp of type float64"
  else
    Except.ok m

/-- Fold the fields of the inner main object. -/
def decodeWeatherMainFields (m : WeatherMain) : List (String × Json) → Except String WeatherMain
  | [] => Except.ok m
  | kv :: rest =>
    match setWeatherMainField m kv with
    | Except.ok m2 => decodeWeatherMainFields m2 rest
    | Except.error e => Except.error e

/-- One field of the top-level object: keys name (string) and main
(object) are recognised, null is skipped, wrong types fail, every other
key is ignored. -/
def setWeatherField (d : WeatherData) (kv : String × Json) : Except String WeatherData :=
  if kv.1 = "name" then
    match kv.2 with
    | Json.str s => Except.ok { d with Name := s }
    | Json.null => Except.ok d
    | _ => Except.error "cannot unmarshal value into Go struct field WeatherData.name of type string"
  else if kv.1 = "main" then
    match kv.2 with
    | Json.obj inner =>
      match decodeWeatherMainFields d.Main inner with
      | Except.ok m => Except.ok { d with Main := m }
      | Except.error e => Except.error e
    | Json.null => Except.ok d
    | _ => Except.error "cannot unmarshal value into Go struct field WeatherData.main"
  else
    Except.ok d

/-- Fold the top-level object fields left to right. -/
def decodeWeatherFields (d : WeatherData) : List (String × Json) → Except String WeatherData
  | [] => Except.ok d
  | kv :: rest =>
    match setWeatherField d kv with
    | Except.ok d2 => decodeWeatherFields d2 rest
    | Except.error e => Except.error e

/-- json.NewDecoder(resp.Body).Decode(d pointer): fails on a body that is
not valid JSON or whose top level is not an object (null is a no-op). -/
def decodeWeather : Option Json → Except String WeatherData
  | none => Except.error "invalid character looking for beginning of value"
  | some Json.null => Except.ok defaultWeatherData
  | some (Json.obj fields) => decodeWeatherFields defaultWeatherData fields
  | some _ => Except.error "cannot unmarshal value into Go value of type main.WeatherData"

/-- json.Marshal shape produced for a WeatherData by the response encoder. -/
def encodeWeatherData (d : WeatherData) : Json :=
  Json.obj [("name", Json.str d.Name),
            ("main", Json.obj [("temp", Json.num d.Main.TempKelvin)])]

/-- The upstream URL built by queryWeather. -/
def weatherURL (city : String) : String :=
  "http://api.openweathermap.org/data/2.5/weather?APPID=" ++ API_KEY ++ "&q=" ++ city

/-- queryWeather: one outbound GET (modelled by httpGet); a transport
error is returned as is, otherwise the body is decoded into WeatherData. -/
def queryWeather (httpGet : String → Except String (Option Json)) (city : String) :
    Except String WeatherData :=
  match httpGet (weatherURL city) with
  | Except.error e => Except.error e
  | Except.ok body => decodeWeather body

/-- Join path segments back with slashes (used to model SplitN with limit
3, whose final part keeps any further slashes). -/
def joinSlash : List String → String
  | [] => ""
  | [s] => s
  | s :: rest => s ++ "/" ++ joinSlash rest

/-- strings.SplitN(r.URL.Path, slash, 3) index 2: everything after the
second slash; empty when the path has fewer than two slashes. -/
def pathCity (path : String) : String :=
  match splitSlash path with
  | _ :: _ :: rest => joinSlash rest
  | _ => ""

/-- weatherRequestHandler: extract the city, query upstream; any error
becomes 500 with the error text (http.Error), success is re-encoded with
200.  The trailing newlines http.Error and Encode append are elided. -/
def weatherRequestHandler (httpGet : String → Except String (Option Json))
    (path : String) : Response :=
  match queryWeather httpGet (pathCity path) with
  | Except.error e => ⟨500, RBody.text e⟩
  | Except.ok data => ⟨200, RBody.json (encodeWeatherData data)⟩

/-- helloHandler: a static greeting. -/
def helloHandler : Response := ⟨200, RBody.text "Hello World!"⟩

/- Helper lemmas. -/

theorem getD_set_self {α : Type} (l : List α) (n : Nat) (v d : α) (h : n < l.length) :
    (l.set n v).getD n d = v := by
  simp [List.getD_eq_getElem?_getD, List.getElem?_set_eq_of_lt v h]

theorem getD_set_ne {α : Type} (l : List α) (m n : Nat) (v d : α) (h : m ≠ n) :
    (l.set m v).getD n d = l.getD n d := by
  simp [List.getD_eq_getElem?_getD, List.getElem?_set_ne h]

theorem serveHTTP_eq_post (ph : Products) (r : Request) (h : r.method = "POST") :
    productHandler.serveHTTP ph r = productHandler.post ph r := by
  simp [productHandler.serveHTTP, h]

theorem serveHTTP_eq_get (ph : Products) (r : Request) (h : r.method = "GET") :
    productHandler.serveHTTP ph r = productHandler.get ph r := by
  simp [productHandler.serveHTTP, h]

theorem serveHTTP_eq_put (ph : Products) (r : Request) (h : r.method = "PUT") :
    productHandler.serveHTTP ph r = productHandler.put ph r := by
  simp [productHandler.serveHTTP, h]

theorem serveHTTP_eq_delete (ph : Products) (r : Request) (h : r.method = "DELETE") :
    productHandler.serveHTTP ph r = productHandler.delete ph r := by
  simp [productHandler.serveHTTP, h]

/- Claims. -/

/-- C1, counterexample.  The claim says a GET whose third path segment is
not a decimal integer gets a 404; on GET /products/abc the code instead
answers 200 with the full product list, so the claim fails at this input. -/
theorem c1_counterexample :
    (productHandler.serveHTTP seedProducts ⟨"GET", "/products/abc", "", none⟩).2.status = 200 ∧
    (productHandler.serveHTTP seedProducts ⟨"GET", "/products/abc", "", none⟩).2.status ≠ 404 := by
  exact ⟨rfl, by decide⟩

/-- C1, amended.  For every GET request to the product service whose path
fails to parse to an id (in particular a third segment that is not a
decimal integer), the response is 200 with the encoding of the whole
product collection, and the collection is unchanged. -/
theorem c1_get_malformed_path (ph : Products) (r : Request) (e : String)
    (hm : r.method = "GET") (hid : getIdFromRequestPath r.url = Except.error e) :
    productHandler.serveHTTP ph r = (ph, returnJSONResponse 200 (encodeProducts ph)) := by
  rw [serveHTTP_eq_get ph r hm]
  simp [productHandler.get, hid]

/-- C1, amended, witness at GET /products/abc on the seeded collection. -/
theorem c1_get_malformed_path_witness :
    productHandler.serveHTTP seedProducts ⟨"GET", "/products/abc", "", none⟩ =
      (seedProducts, returnJSONResponse 200 (encodeProducts seedProducts)) :=
  c1_get_malformed_path seedProducts ⟨"GET", "/products/abc", "", none⟩ "malformed id" rfl rfl

/-- C2, counterexample.  The claim says every POST to /products with a
body that is not valid JSON gets 400; with content-type text/plain the
code answers 415 (the content-type check precedes the JSON decode), so
the claim fails at this input. -/
theorem c2_counterexample :
    (productHandler.serveHTTP seedProducts ⟨"POST", "/products", "text/plain", none⟩).2.status = 415 ∧
    (productHandler.serveHTTP seedProducts ⟨"POST", "/products", "text/plain", none⟩).2.status ≠ 400 := by
  exact ⟨rfl, by decide⟩

/-- C2, amended.  A POST whose body fails to unmarshal gets 400 provided
its content-type is application/json; with any other content-type the
response is 415 regardless of the body.  In both cases the collection is
unchanged. -/
theorem c2_post_bad_body (ph : Products) (r : Request)
    (hm : r.method = "POST") :
    (∀ e, r.contentType = "application/json" → unmarshalProduct r.body = Except.error e →
      productHandler.serveHTTP ph r = (ph, returnErrorResponse 400 e)) ∧
    (r.contentType ≠ "application/json" →
      productHandler.serveHTTP ph r =
        (ph, returnErrorResponse 415 "Content type should be application/json.")) := by
  rw [serveHTTP_eq_post ph r hm]
  constructor
  · intro e hct hb
    simp [productHandler.post, hct, hb]
  · intro hct
    simp [productHandler.post, hct]

/-- C2, amended, witness: a POST of a non-JSON body with content-type
application/json on the seeded collection gets 400. -/
theorem c2_post_bad_body_witness :
    productHandler.serveHTTP seedProducts ⟨"POST", "/products", "application/json", none⟩ =
      (seedProducts,
        returnErrorResponse 400 "invalid character looking for beginning of value") :=
  (c2_post_bad_body seedProducts ⟨"POST", "/products", "application/json", none⟩ rfl).1
    "invalid character looking for beginning of value" rfl rfl

/-- C3.  A GET /products/id with a well-formed integer id answers 200 with
the product stored at index id when 0 ≤ id < length, and 404 otherwise;
the collection is never changed. -/
theorem c3_get_by_id (ph : Products) (r : Request) (id : Int)
    (hm : r.method = "GET") (hid : getIdFromRequestPath r.url = Except.ok id) :
    (0 ≤ id → id < (ph.length : Int) →
      productHandler.serveHTTP ph r =
        (ph, returnJSONResponse 200 (encodeProduct (ph.getD id.toNat defaultProduct)))) ∧
    (id < 0 ∨ id ≥ (ph.length : Int) →
      productHandler.serveHTTP ph r =
        (ph, returnErrorResponse 404 "Product Id does not exist.")) := by
  rw [serveHTTP_eq_get ph r hm]
  constructor
  · intro h0 hlt
    have hcond : ¬ (id < 0 ∨ id ≥ (ph.length : Int)) := by omega
    simp only [productHandler.get, hid]
    rw [if_neg hcond]
  · intro hout
    simp only [productHandler.get, hid]
    rw [if_pos hout]

/-- C3, witness: GET /products/1 returns the second seeded product, and
GET /products/99 on the 3-element seed returns 404. -/
theorem c3_get_by_id_witness :
    productHandler.serveHTTP seedProducts ⟨"GET", "/products/1", "", none⟩ =
      (seedProducts, returnJSONResponse 200 (encodeProduct ⟨"car", 250⟩)) ∧
    productHandler.serveHTTP seedProducts ⟨"GET", "/products/99", "", none⟩ =
      (seedProducts, returnErrorResponse 404 "Product Id does not exist.") :=
  ⟨(c3_get_by_id seedProducts ⟨"GET", "/products/1", "", none⟩ 1 rfl rfl).1
      (by decide) (by decide),
   (c3_get_by_id seedProducts ⟨"GET", "/products/99", "", none⟩ 99 rfl rfl).2
      (by right; decide)⟩

/-- C4.  A PUT /products/id with in-range id, JSON content-type and a body
decoding to p overwrites exactly the non-empty name and the non-zero
price of the stored product, keeps every empty/zero field at its previous
value, leaves every other index and the length unchanged, and answers 200
with the updated product. -/
theorem c4_put_partial_update (ph : Products) (r : Request) (id : Int) (p : Product)
    (hm : r.method = "PUT") (hid : getIdFromRequestPath r.url = Except.ok id)
    (hct : r.contentType = "application/json")
    (hb : unmarshalProduct r.body = Except.ok p)
    (h0 : 0 ≤ id) (hlt : id < (ph.length : Int)) :
    ((productHandler.serveHTTP ph r).1.length = ph.length) ∧
    (((productHandler.serveHTTP ph r).1.getD id.toNat defaultProduct).Name
        = if p.Name = "" then (ph.getD id.toNat defaultProduct).Name else p.Name) ∧
    (((productHandler.serveHTTP ph r).1.getD id.toNat defaultProduct).Price
        = if p.Price = 0 then (ph.getD id.toNat defaultProduct).Price else p.Price) ∧
    (∀ j, j ≠ id.toNat →
      (productHandler.serveHTTP ph r).1.getD j defaultProduct
        = ph.getD j defaultProduct) ∧
    ((productHandler.serveHTTP ph r).2 =
      returnJSONResponse 200 (encodeProduct
        ((productHandler.serveHTTP ph r).1.getD id.toNat defaultProduct))) := by
  have hct2 : ¬ (r.contentType ≠ "application/json") := fun hc => hc hct
  have hcond : ¬ (id < 0 ∨ id ≥ (ph.length : Int)) := by omega
  have hidlt : id.toNat < ph.length := by omega
  have hstep : productHandler.serveHTTP ph r =
      (ph.set id.toNat
        ⟨if p.Name ≠ "" then p.Name else (ph.getD id.toNat defaultProduct).Name,
         if p.Price ≠ 0 then p.Price else (ph.getD id.toNat defaultProduct).Price⟩,
       returnJSONResponse 200 (encodeProduct
        ⟨if p.Name ≠ "" then p.Name else (ph.getD id.toNat defaultProduct).Name,
         if p.Price ≠ 0 then p.Price else (ph.getD id.toNat defaultProduct).Price⟩)) := by
    rw [serveHTTP_eq_put ph r hm]
    simp only [productHandler.put, hid, if_neg hct2, hb, if_neg hcond]
  rw [hstep]
  refine ⟨by simp, ?_, ?_, ?_, ?_⟩
  · rw [getD_set_self ph id.toNat _ defaultProduct hidlt]
    by_cases hn : p.Name = "" <;> simp [hn]
  · rw [getD_set_self ph id.toNat _ defaultProduct hidlt]
    by_cases hp : p.Price = 0 <;> simp [hp]
  · intro j hj
    exact getD_set_ne ph id.toNat j _ defaultProduct (fun heq => hj heq.symm)
  · rw [getD_set_self ph id.toNat _ defaultProduct hidlt]

/-- C4, witness: PUT /products/0 with body name empty and price 5 on the
seeded collection keeps the name food and changes only the price to 5;
indexes 1 and 2 are untouched and the response carries the update. -/
theorem c4_put_partial_update_witness :
    (((productHandler.serveHTTP seedProducts
        ⟨"PUT", "/products/0", "application/json",
          some (Json.obj [("name", Json.str ""), ("price", Json.num 5)])⟩).1.getD 0
            defaultProduct).Name = "food") ∧
    (((productHandler.serveHTTP seedProducts
        ⟨"PUT", "/products/0", "application/json",
          some (Json.obj [("name", Json.str ""), ("price", Json.num 5)])⟩).1.getD 0
            defaultProduct).Price = 5) ∧
    ((productHandler.serveHTTP seedProducts
        ⟨"PUT", "/products/0", "application/json",
          some (Json.obj [("name", Json.str ""), ("price", Json.num 5)])⟩).1.getD 1
            defaultProduct = ⟨"car", 250⟩) := by
  have h := c4_put_partial_update seedProducts
    ⟨"PUT", "/products/0", "application/json",
      some (Json.obj [("name", Json.str ""), ("price", Json.num 5)])⟩ 0 ⟨"", 5⟩
    rfl rfl rfl rfl (by decide) (by decide)
  exact ⟨by simpa using h.2.1, by simpa using h.2.2.1, by simpa using h.2.2.2.1 1 (by decide)⟩

/-- C5.  A POST with JSON content-type whose body decodes to p appends p
at the end (length grows by one), answers 201 with p, and every
subsequent GET whose path parses to the new index returns the same p
with 200. -/
theorem c5_post_then_get (ph : Products) (r : Request) (p : Product)
    (hm : r.method = "POST") (hct : r.contentType = "application/json")
    (hb : unmarshalProduct r.body = Except.ok p) :
    productHandler.serveHTTP ph r = (ph ++ [p], returnJSONResponse 201 (encodeProduct p)) ∧
    (ph ++ [p]).length = ph.length + 1 ∧
    (∀ r2 : Request, r2.method = "GET" →
      getIdFromRequestPath r2.url = Except.ok (ph.length : Int) →
      productHandler.serveHTTP (ph ++ [p]) r2 =
        (ph ++ [p], returnJSONResponse 200 (encodeProduct p))) := by
  have hct2 : ¬ (r.contentType ≠ "application/json") := fun hc => hc hct
  refine ⟨?_, by simp, ?_⟩
  · rw [serveHTTP_eq_post ph r hm]
    simp only [productHandler.post, if_neg hct2, hb]
  · intro r2 hm2 hid2
    rw [serveHTTP_eq_get (ph ++ [p]) r2 hm2]
    have hcond : ¬ ((ph.length : Int) < 0 ∨
        (ph.length : Int) ≥ ((ph ++ [p]).length : Int)) := by
      simp only [List.length_append, List.length_singleton]
      omega
    simp only [productHandler.get, hid2, if_neg hcond]
    have hget : (ph ++ [p]).getD (ph.length : Int).toNat defaultProduct = p := by
      rw [Int.toNat_natCast, List.getD_append_right ph [p] defaultProduct ph.length le_rfl]
      simp
    rw [hget]

/-- C5, witness: POST of the product x priced 1 to the seeded 3-element
collection appends it, and GET /products/3 then returns exactly it. -/
theorem c5_post_then_get_witness :
    productHandler.serveHTTP seedProducts
      ⟨"POST", "/products", "application/json",
        some (Json.obj [("name", Json.str "x"), ("price", Json.num 1)])⟩ =
      (seedProducts ++ [⟨"x", 1⟩], returnJSONResponse 201 (encodeProduct ⟨"x", 1⟩)) ∧
    productHandler.serveHTTP (seedProducts ++ [⟨"x", 1⟩]) ⟨"GET", "/products/3", "", none⟩ =
      (seedProducts ++ [⟨"x", 1⟩], returnJSONResponse 200 (encodeProduct ⟨"x", 1⟩)) := by
  have h := c5_post_then_get seedProducts
    ⟨"POST", "/products", "application/json",
      some (Json.obj [("name", Json.str "x"), ("price", Json.num 1)])⟩ ⟨"x", 1⟩
    rfl rfl rfl
  exact ⟨h.1, h.2.2 ⟨"GET", "/products/3", "", none⟩ rfl rfl⟩

/-- C6.  Every DELETE request, whatever its path, content-type or body,
leaves the product collection exactly as it was and answers with the
literal stub text with the implicit 200 status. -/
theorem c6_delete_stub (ph : Products) (r : Request) (hm : r.method = "DELETE") :
    productHandler.serveHTTP ph r = (ph, ⟨200, RBody.text "Delete!"⟩) := by
  rw [serveHTTP_eq_delete ph r hm]
  rfl

/-- C6, witness: DELETE /products/1 on the seeded collection. -/
theorem c6_delete_stub_witness :
    productHandler.serveHTTP seedProducts ⟨"DELETE", "/products/1", "", none⟩ =
      (seedProducts, ⟨200, RBody.text "Delete!"⟩) :=
  c6_delete_stub seedProducts ⟨"DELETE", "/products/1", "", none⟩ rfl

/-- C7.  For the weather handler: a transport or decode error from the
upstream query yields 500 with the error text as body, a success is
re-encoded with 200, and the status can be 200 only when the query
produced no error. -/
theorem c7_weather_error_handling (httpGet : String → Except String (Option Json))
    (path : String) :
    (∀ e, queryWeather httpGet (pathCity path) = Except.error e →
      weatherRequestHandler httpGet path = ⟨500, RBody.text e⟩) ∧
    (∀ d, queryWeather httpGet (pathCity path) = Except.ok d →
      weatherRequestHandler httpGet path = ⟨200, RBody.json (encodeWeatherData d)⟩) ∧
    ((weatherRequestHandler httpGet path).status = 200 →
      ∃ d, queryWeather httpGet (pathCity path) = Except.ok d) := by
  refine ⟨?_, ?_, ?_⟩
  · intro e he
    simp [weatherRequestHandler, he]
  · intro d hd
    simp [weatherRequestHandler, hd]
  · intro h200
    cases hq : queryWeather httpGet (pathCity path) with
    | error e => simp [weatherRequestHandler, hq] at h200
    | ok d => exact ⟨d, rfl⟩

/-- C7, witness: an upstream transport failure surfaces as 500 with the
error text. -/
theorem c7_weather_error_handling_witness :
    weatherRequestHandler (fun _ => Except.error "connection refused") "/weather/London" =
      ⟨500, RBody.text "connection refused"⟩ :=
  (c7_weather_error_handling (fun _ => Except.error "connection refused")
    "/weather/London").1 "connection refused" rfl

/-- The upstream body of the spec example for the weather proxy. -/
def londonBody : Json :=
  Json.obj [("name", Json.str "London"), ("main", Json.obj [("temp", Json.num 280)])]

/-- C8.  The decoder ignores every upstream field other than name and
main, it extracts exactly name and main.temp, every successful response
is the two-field object built from the decoded data, and on the London
example body the proxy returns the very same JSON document. -/
theorem c8_weather_field_extraction :
    (∀ (d : WeatherData) (fields : List (String × Json)) (k : String) (v : Json),
      k ≠ "name" → k ≠ "main" →
      decodeWeatherFields d (fields ++ [(k, v)]) = decodeWeatherFields d fields) ∧
    (∀ (n : String) (t : Rat),
      decodeWeather (some (Json.obj
        [("name", Json.str n), ("main", Json.obj [("temp", Json.num t)])])) =
        Except.ok ⟨n, ⟨t⟩⟩) ∧
    (∀ (g : String → Except String (Option Json)) (path : String) (d : WeatherData),
      queryWeather g (pathCity path) = Except.ok d →
      weatherRequestHandler g path =
        ⟨200, RBody.json (Json.obj [("name", Json.str d.Name),
          ("main", Json.obj [("temp", Json.num d.Main.TempKelvin)])])⟩) ∧
    (weatherRequestHandler (fun _ => Except.ok (some londonBody)) "/weather/London" =
      ⟨200, RBody.json londonBody⟩) := by
  refine ⟨?_, ?_, ?_, ?_⟩
  · intro d fields k v hk1 hk2
    induction fields generalizing d with
    | nil => simp [decodeWeatherFields, setWeatherField, hk1, hk2]
    | cons kv rest ih =>
      simp only [List.cons_append, decodeWeatherFields]
      cases h : setWeatherField d kv with
      | error e => rfl
      | ok d2 => exact ih d2
  · intro n t
    rfl
  · intro g path d hd
    simp [weatherRequestHandler, hd, encodeWeatherData]
  · rfl

/-- C8, witness: an extra upstream field with an unrecognised key (here
cod) is discarded by the decoder. -/
theorem c8_weather_field_extraction_witness :
    decodeWeatherFields defaultWeatherData
        ([("name", Json.str "London")] ++ [("cod", Json.num 200)]) =
      decodeWeatherFields defaultWeatherData [("name", Json.str "London")] :=
  c8_weather_field_extraction.1 defaultWeatherData [("name", Json.str "London")]
    "cod" (Json.num 200) (by decide) (by decide)

/- State-change characterization of each handler, used for the global
collection invariant. -/

theorem post_state (ph : Products) (r : Request) :
    (productHandler.post ph r).1 = ph ∨ ∃ p, (productHandler.post ph r).1 = ph ++ [p] := by
  unfold productHandler.post
  split
  · exact Or.inl rfl
  · split
    · exact Or.inl rfl
    · exact Or.inr ⟨_, rfl⟩

theorem get_state (ph : Products) (r : Request) : (productHandler.get ph r).1 = ph := by
  unfold productHandler.get
  split
  · rfl
  · split
    · rfl
    · rfl

theorem put_state (ph : Products) (r : Request) :
    (productHandler.put ph r).1 = ph ∨
    ∃ id upd, getIdFromRequestPath r.url = Except.ok id ∧
      0 ≤ id ∧ id < (ph.length : Int) ∧
      (productHandler.put ph r).1 = ph.set id.toNat upd := by
  unfold productHandler.put
  split
  · exact Or.inl rfl
  · next id heq =>
    split
    · exact Or.inl rfl
    · split
      · exact Or.inl rfl
      · split
        · exact Or.inl rfl
        · next hc =>
          exact Or.inr ⟨id, _, heq, by omega, by omega, rfl⟩

theorem serveHTTP_state (ph : Products) (r : Request) :
    (productHandler.serveHTTP ph r).1 = ph ∨
    (r.method = "POST" ∧ ∃ p, (productHandler.serveHTTP ph r).1 = ph ++ [p]) ∨
    (r.method = "PUT" ∧ ∃ id upd, getIdFromRequestPath r.url = Except.ok id ∧
      0 ≤ id ∧ id < (ph.length : Int) ∧
      (productHandler.serveHTTP ph r).1 = ph.set id.toNat upd) := by
  by_cases hpost : r.method = "POST"
  · rw [serveHTTP_eq_post ph r hpost]
    rcases post_state ph r with h | h
    · exact Or.inl h
    · exact Or.inr (Or.inl ⟨hpost, h⟩)
  by_cases hget : r.method = "GET"
  · rw [serveHTTP_eq_get ph r hget]
    exact Or.inl (get_state ph r)
  by_cases hput : r.method = "PUT"
  · rw [serveHTTP_eq_put ph r hput]
    rcases put_state ph r with h | h
    · exact Or.inl h
    · exact Or.inr (Or.inr ⟨hput, h⟩)
  by_cases hdel : r.method = "DELETE"
  · rw [serveHTTP_eq_delete ph r hdel]
    exact Or.inl rfl
  · refine Or.inl ?_
    simp [productHandler.serveHTTP, hpost, hget, hput, hdel]

/-- C9.  Across requests the collection only grows: a single request never
shrinks it, the element at an already-valid index survives unchanged
unless the request is a PUT whose path parses exactly to that index, and
over any sequence of requests the length never decreases, so every valid
index stays valid. -/
theorem c9_collection_only_grows :
    (∀ (ph : Products) (r : Request),
      ph.length ≤ ((productHandler.serveHTTP ph r).1).length) ∧
    (∀ (ph : Products) (r : Request) (i : Nat), i < ph.length →
      ((productHandler.serveHTTP ph r).1.getD i defaultProduct
          = ph.getD i defaultProduct ∨
        (r.method = "PUT" ∧ getIdFromRequestPath r.url = Except.ok (i : Int)))) ∧
    (∀ (ph : Products) (rs : List Request),
      ph.length ≤ (rs.foldl (fun s r => (productHandler.serveHTTP s r).1) ph).length) ∧
    (∀ (ph : Products) (rs : List Request) (i : Nat), i < ph.length →
      i < (rs.foldl (fun s r => (productHandler.serveHTTP s r).1) ph).length) := by
  have step_len : ∀ (ph : Products) (r : Request),
      ph.length ≤ ((productHandler.serveHTTP ph r).1).length := by
    intro ph r
    rcases serveHTTP_state ph r with h | ⟨_, p, h⟩ | ⟨_, id, upd, _, _, _, h⟩
    · rw [h]
    · rw [h]; simp
    · rw [h]; simp
  have fold_len : ∀ (rs : List Request) (ph : Products),
      ph.length ≤ (rs.foldl (fun s r => (productHandler.serveHTTP s r).1) ph).length := by
    intro rs
    induction rs with
    | nil => intro ph; exact le_rfl
    | cons r rest ih =>
      intro ph
      exact le_trans (step_len ph r) (ih ((productHandler.serveHTTP ph r).1))
  refine ⟨step_len, ?_, fun ph rs => fold_len rs ph, ?_⟩
  · intro ph r i hi
    rcases serveHTTP_state ph r with h | ⟨_, p, h⟩ | ⟨hput, id, upd, hid, h0, hlt, h⟩
    · exact Or.inl (by rw [h])
    · exact Or.inl (by rw [h, List.getD_append ph [p] defaultProduct i hi])
    · by_cases hieq : i = id.toNat
      · refine Or.inr ⟨hput, ?_⟩
        have : (i : Int) = id := by omega
        rw [this]
        exact hid
      · exact Or.inl (by
          rw [h, getD_set_ne ph id.toNat i upd defaultProduct (fun he => hieq he.symm)])
  · intro ph rs i hi
    exact lt_of_lt_of_le hi (fold_len rs ph)

/-- C9, witness: on the seeded collection, after a PUT to index 0 the
element at index 0 either survives unchanged or the request is that PUT
itself; instantiated per the second conjunct. -/
theorem c9_collection_only_grows_witness :
    (productHandler.serveHTTP seedProducts
        ⟨"PUT", "/products/0", "application/json",
          some (Json.obj [("price", Json.num 5)])⟩).1.getD 0 defaultProduct
      = seedProducts.getD 0 defaultProduct ∨
    ((⟨"PUT", "/products/0", "application/json",
        some (Json.obj [("price", Json.num 5)])⟩ : Request).method = "PUT" ∧
      getIdFromRequestPath
        (⟨"PUT", "/products/0", "application/json",
          some (Json.obj [("price", Json.num 5)])⟩ : Request).url =
        Except.ok ((0 : Nat) : Int)) :=
  c9_collection_only_grows.2.1 seedProducts
    ⟨"PUT", "/products/0", "application/json", some (Json.obj [("price", Json.num 5)])⟩
    0 (by decide)

/-- C10.  On a PUT the checks fire in the order: malformed path (404),
then wrong content-type (415), then a body that fails to unmarshal (400),
and only then an out-of-range id (404); in particular a well-formed
out-of-range id with a wrong content-type gets 415, not 404, because the
content-type check precedes the range check. -/
theorem c10_put_check_order (ph : Products) (r : Request) (hm : r.method = "PUT") :
    (∀ e, getIdFromRequestPath r.url = Except.error e →
      productHandler.serveHTTP ph r = (ph, returnErrorResponse 404 e)) ∧
    (∀ id, getIdFromRequestPath r.url = Except.ok id →
      r.contentType ≠ "application/json" →
      productHandler.serveHTTP ph r =
        (ph, returnErrorResponse 415 "Content type should be application/json.")) ∧
    (∀ id e, getIdFromRequestPath r.url = Except.ok id →
      r.contentType = "application/json" →
      unmarshalProduct r.body = Except.error e →
      productHandler.serveHTTP ph r = (ph, returnErrorResponse 400 e)) ∧
    (∀ id p, getIdFromRequestPath r.url = Except.ok id →
      r.contentType = "application/json" →
      unmarshalProduct r.body = Except.ok p →
      (id < 0 ∨ id ≥ (ph.length : Int)) →
      productHandler.serveHTTP ph r =
        (ph, returnErrorResponse 404 "Product Id does not exist.")) := by
  rw [serveHTTP_eq_put ph r hm]
  refine ⟨?_, ?_, ?_, ?_⟩
  · intro e he
    simp only [productHandler.put, he]
  · intro id hid hct
    simp only [productHandler.put, hid, if_pos hct]
  · intro id e hid hct hb
    have hct2 : ¬ (r.contentType ≠ "application/json") := fun hc => hc hct
    simp only [productHandler.put, hid, if_neg hct2, hb]
  · intro id p hid hct hb hrange
    have hct2 : ¬ (r.contentType ≠ "application/json") := fun hc => hc hct
    simp only [productHandler.put, hid, if_neg hct2, hb, if_pos hrange]

/-- C10, witness: PUT /products/99 (out of range for the 3-element seed)
with content-type text/plain answers 415, showing the content-type check
runs before the range check. -/
theorem c10_put_check_order_witness :
    productHandler.serveHTTP seedProducts
      ⟨"PUT", "/products/99", "text/plain",
        some (Json.obj [("name", Json.str "x"), ("price", Json.num 1)])⟩ =
      (seedProducts,
        returnErrorResponse 415 "Content type should be application/json.") :=
  (c10_put_check_order seedProducts
    ⟨"PUT", "/products/99", "text/plain",
      some (Json.obj [("name", Json.str "x"), ("price", Json.num 1)])⟩ rfl).2.1
    99 rfl (by decide)

end Gosand
